import Mathlib

/-!
Shallow embedding of the per-frame analysis-and-annotation pipeline of
src/main.py (class MovementDetector).

Modelling conventions:
* OpenCV contours are abstract inputs: each carries the value cv2.contourArea
  returns for it (a nonnegative float, modelled as a rational) and the
  cv2.boundingRect output (x, y, w, h).
* Python float arithmetic is modelled by exact rational arithmetic; every
  concrete value a claim is evaluated at is dyadic and small, where IEEE
  double arithmetic is exact.
* np.sqrt is kept abstract: the pipeline is parametrised by a function
  sq : Int -> Rat applied to the integer radicand dx*dx + dy*dy.  Theorems
  assume of sq only facts true of the real square root (sq 0 = 0, or its
  exact value on a perfect square).  The default instantiation npSqrt below
  agrees with np.sqrt on every perfect square, which covers all concrete
  inputs appearing in the claims.
* Python int() is truncation toward zero (pyInt).
* Pixel-level frame mutation (the ROI effect compositing of lines 251-275 and
  the actual cv2 raster calls) is not modelled; instead the pipeline records
  the drawing commands it issues (box draws with their colors, proximity line
  draws with their colors), which is what the claims are about.
* Colors are BGR integer triples, exactly the tuples the source manipulates.
-/

/-- Python int(): truncation of a rational toward zero. -/
def pyInt (q : ℚ) : ℤ := if 0 ≤ q then ⌊q⌋ else ⌈q⌉

/-- BGR color triple, as the tuples used throughout src/main.py. -/
abbrev BGR := ℤ × ℤ × ℤ

/-- The settings dictionary of MainWindow.__init__ (src/main.py lines
344-369), restricted to the keys read while processing; values keep the
source types (ints, bools, strings, color tuples, floats as rationals). -/
structure Settings where
  line_distance : ℤ
  show_lines : Bool
  negative_effect : Bool
  negative_intensity : ℤ
  line_color : BGR
  heat_map : Bool
  heat_intensity : ℤ
  edge_detection : Bool
  edge_intensity : ℤ
  edge_color : BGR
  box_thickness : ℤ
  box_style : String
  box_corners : Bool
  box_padding : ℤ
  font_size : ℚ
  min_area : ℚ
  font_color : BGR
  show_box : Bool
  connection_point : String
deriving DecidableEq

/-- The default settings values of src/main.py lines 344-369. -/
def defaultSettings : Settings :=
  { line_distance := 200
    show_lines := true
    negative_effect := true
    negative_intensity := 100
    line_color := (255, 192, 203)
    heat_map := true
    heat_intensity := 50
    edge_detection := true
    edge_intensity := 50
    edge_color := (255, 255, 170)
    box_thickness := 2
    box_style := "solid"
    box_corners := false
    box_padding := 0
    font_size := 9/10
    min_area := 500
    font_color := (0, 0, 0)
    show_box := true
    connection_point := "center" }

/-- One contour as the pipeline observes it: the cv2.contourArea value and
the cv2.boundingRect rectangle (src/main.py lines 219, 221). -/
structure Contour where
  area : ℚ
  x : ℤ
  y : ℤ
  w : ℤ
  h : ℤ
deriving DecidableEq

/-- center = (x + w//2, y + h//2) (src/main.py line 222); Python // is floor
division, hence Int.fdiv. -/
def centroid (c : Contour) : ℤ × ℤ := (c.x + Int.fdiv c.w 2, c.y + Int.fdiv c.h 2)

/-- The self.prev_centers dict: an association list from centroid to stored
centroid, with Python dict lookup (first matching key). -/
abbrev TrackState := List ((ℤ × ℤ) × (ℤ × ℤ))

/-- Python membership test plus indexing `center in d` / `d[center]`. -/
def lookupCenter (st : TrackState) (k : ℤ × ℤ) : Option (ℤ × ℤ) :=
  match st with
  | [] => none
  | (k1, v) :: rest => if k1 = k then some v else lookupCenter rest k

/-- The squared displacement dx*dx + dy*dy fed to np.sqrt
(src/main.py lines 226-228, 242-244). -/
def speedSqOf (center prev : ℤ × ℤ) : ℤ :=
  (center.1 - prev.1) * (center.1 - prev.1) + (center.2 - prev.2) * (center.2 - prev.2)

/-- get_heat_color (src/main.py lines 138-155), BGR output. -/
def get_heat_color (speed max_speed : ℚ) : BGR :=
  if max_speed = 0 then
    (255, 0, 0)
  else
    let ratio := min (speed / max_speed) 1
    if ratio < 1/4 then
      (255, pyInt (255 * ratio * 4), 0)
    else if ratio < 1/2 then
      (255 - pyInt (255 * (ratio - 1/4) * 4), 255, 0)
    else if ratio < 3/4 then
      (0, 255 - pyInt (255 * (ratio - 1/2) * 4), pyInt (255 * (ratio - 1/2) * 4))
    else
      (0, pyInt (255 * (1 - ratio) * 4), 255)

/-- The padded-and-clamped box of draw_box (src/main.py lines 157-163). -/
structure ClampedBox where
  x : ℤ
  y : ℤ
  w : ℤ
  h : ℤ
deriving DecidableEq

/-- draw_box begins by padding the box and clamping it against the frame
shape: x = max(0, x - padding), y = max(0, y - padding),
w = min(width - x, w + 2*padding), h = min(height - y, h + 2*padding)
(src/main.py lines 159-163); width = frame.shape[1], height = frame.shape[0].
All subsequent drawing in draw_box stays inside
[x, x + w] x [y, y + h] for the clamped values. -/
def draw_box_clamp (width height x y w h padding : ℤ) : ClampedBox :=
  let x1 := max 0 (x - padding)
  let y1 := max 0 (y - padding)
  let w1 := min (width - x1) (w + 2 * padding)
  let h1 := min (height - y1) (h + 2 * padding)
  { x := x1, y := y1, w := w1, h := h1 }

/-- Direction classification of a matched blob (src/main.py lines 246-249). -/
def directionOf (dx dy : ℤ) : String :=
  if |dx| > |dy| then
    if dx > 0 then "Right" else "Left"
  else
    if dy > 0 then "Down" else "Up"

/-- The direction rule exactly as the spec words it (section 4.3): if
|dx| > |dy|, Right when dx > 0 else Left; otherwise Down when dy > 0 else
Up, ties falling into the vertical branch.  Stated separately from
directionOf so the two can be compared. -/
def directionSpec (dx dy : ℤ) : String :=
  if |dx| > |dy| then
    if dx > 0 then "Right" else "Left"
  else
    if dy > 0 then "Down" else "Up"

/-- Speed and direction of one blob in the second pass (src/main.py lines
238-249): initialised to (0, "N/A"), overwritten on an exact centroid match. -/
def blobSpeedDir (sq : ℤ → ℚ) (prev : TrackState) (center : ℤ × ℤ) : ℚ × String :=
  match lookupCenter prev center with
  | some p =>
      (sq (speedSqOf center p),
       directionOf (center.1 - p.1) (center.2 - p.2))
  | none => (0, "N/A")

/-- One entry of frame_data (src/main.py lines 299-304). -/
structure DetectionRecord where
  area : ℤ
  x : ℤ
  y : ℤ
  w : ℤ
  h : ℤ
  speed : ℚ
  direction : String
deriving DecidableEq

/-- The frame_data entry built for one retained contour
(src/main.py lines 299-304). -/
def recordFor (sq : ℤ → ℚ) (prev : TrackState) (c : Contour) : DetectionRecord :=
  let sd := blobSpeedDir sq prev (centroid c)
  { area := pyInt c.area, x := c.x, y := c.y, w := c.w, h := c.h,
    speed := sd.1, direction := sd.2 }

/-- First pass of process_frame (src/main.py lines 217-229): fold over all
contours; a contour with area > min_area whose centroid occurs in
prev_centers contributes max_speed = max(max_speed, speed). -/
def pass1 (sq : ℤ → ℚ) (prev : TrackState) (minArea : ℚ) :
    List Contour → ℚ → ℚ
  | [], m => m
  | c :: rest, m =>
    if minArea < c.area then
      match lookupCenter prev (centroid c) with
      | some p => pass1 sq prev minArea rest (max m (sq (speedSqOf (centroid c) p)))
      | none => pass1 sq prev minArea rest m
    else
      pass1 sq prev minArea rest m

/-- A draw_box invocation issued by the second pass
(src/main.py lines 277-281). -/
structure BoxDrawCall where
  x : ℤ
  y : ℤ
  w : ℤ
  h : ℤ
  color : BGR
deriving DecidableEq

/-- Everything the second pass accumulates: frame_data, the boxes list
(of which only the connection points feed the line stage), current_centers,
and the draw_box calls issued. -/
structure Pass2Out where
  records : List DetectionRecord
  conns : List (ℤ × ℤ)
  centers : TrackState
  boxDraws : List BoxDrawCall
deriving DecidableEq

/-- Second pass of process_frame (src/main.py lines 231-306).  For each
contour with area > min_area: compute speed/direction against the untouched
prev_centers, issue the draw_box call (line 281, unconditional; box_color
is the heat color when heat_map is set, line 278-280), record the
connection point (line 292), append the frame_data entry (lines 299-304)
and set current_centers[center] = center (line 306).  Output lists are in
iteration order. -/
def pass2 (sq : ℤ → ℚ) (prev : TrackState) (color : BGR) (s : Settings)
    (maxSp : ℚ) : List Contour → Pass2Out
  | [] => { records := [], conns := [], centers := [], boxDraws := [] }
  | c :: rest =>
    let out := pass2 sq prev color s maxSp rest
    if s.min_area < c.area then
      let ctr := centroid c
      let sd := blobSpeedDir sq prev ctr
      let boxColor := if s.heat_map then get_heat_color sd.1 maxSp else color
      { records := recordFor sq prev c :: out.records
        conns := (if s.connection_point = "center" then ctr else (c.x, c.y)) :: out.conns
        centers := (ctr, ctr) :: out.centers
        boxDraws := { x := c.x, y := c.y, w := c.w, h := c.h, color := boxColor } :: out.boxDraws }
    else
      out

/-- The filter the source applies in both passes: a contour is kept exactly
when area > settings[min_area] (src/main.py lines 220, 234). -/
def retainedList (minArea : ℚ) (cs : List Contour) : List Contour :=
  cs.filter (fun c => minArea < c.area)

/-- distance**2 between two connection points (src/main.py line 314). -/
def distSq (p q : ℤ × ℤ) : ℤ :=
  (p.1 - q.1) * (p.1 - q.1) + (p.2 - q.2) * (p.2 - q.2)

/-- intensity = int(255 * (1 - distance/line_distance)) (src/main.py line 317). -/
def lineIntensity (lineDistance : ℤ) (d : ℚ) : ℤ :=
  pyInt (255 * (1 - d / (lineDistance : ℚ)))

/-- The scaled line color (src/main.py lines 318-322): each configured
channel becomes int(channel * intensity/255). -/
def lineColorFor (c : BGR) (lineDistance : ℤ) (d : ℚ) : BGR :=
  let i := lineIntensity lineDistance d
  (pyInt ((c.1 * i : ℤ) / (255 : ℚ)),
   pyInt ((c.2.1 * i : ℤ) / (255 : ℚ)),
   pyInt ((c.2.2 * i : ℤ) / (255 : ℚ)))

/-- One unordered pair of connection points (src/main.py lines 310-323):
a line is issued iff distance < line_distance, carrying the scaled color. -/
def pairLine (sq : ℤ → ℚ) (s : Settings) (p q : ℤ × ℤ) :
    Option ((ℤ × ℤ) × (ℤ × ℤ) × BGR) :=
  let d := sq (distSq p q)
  if d < (s.line_distance : ℚ) then
    some (p, q, lineColorFor s.line_color s.line_distance d)
  else
    none

/-- enumerate(boxes) with the inner loop over boxes[i+1:]
(src/main.py lines 310-311): every unordered pair, each once. -/
def pairsAfter {α : Type} : List α → List (α × α)
  | [] => []
  | x :: rest => rest.map (fun y => (x, y)) ++ pairsAfter rest

/-- Output of one process_frame call (src/main.py lines 202-326), at the
level of issued drawing commands and returned data. -/
structure FrameOutput where
  maxSpeed : ℚ
  records : List DetectionRecord
  boxDraws : List BoxDrawCall
  lineDraws : List ((ℤ × ℤ) × (ℤ × ℤ) × BGR)
  newState : TrackState
deriving DecidableEq

/-- process_frame (src/main.py lines 202-326): first pass for max_speed,
second pass for records, boxes and centers, proximity lines when show_lines
is set (line 309), and finally self.prev_centers = current_centers
(line 325). -/
def process_frame (sq : ℤ → ℚ) (st : TrackState) (color : BGR) (s : Settings)
    (cs : List Contour) : FrameOutput :=
  let ms := pass1 sq st s.min_area cs 0
  let p2 := pass2 sq st color s ms cs
  { maxSpeed := ms
    records := p2.records
    boxDraws := p2.boxDraws
    lineDraws :=
      if s.show_lines then
        (pairsAfter p2.conns).filterMap (fun pq => pairLine sq s pq.1 pq.2)
      else []
    newState := p2.centers }

/-- np.sqrt restricted to the integer radicands the pipeline produces:
exact on every perfect square (the only inputs the concrete claims use);
the truncating natural square root elsewhere. -/
def npSqrt (n : ℤ) : ℚ := (Nat.sqrt n.toNat : ℚ)

/-- The invariant of claim C2: every stored value of prev_centers equals
its own key. -/
def SelfMap (st : TrackState) : Prop := ∀ kv ∈ st, kv.2 = kv.1

/-! ### Helper lemmas -/

lemma pyInt_intCast (n : ℤ) : pyInt (n : ℚ) = n := by
  rw [pyInt]
  rcases le_or_lt 0 (n : ℚ) with h | h
  · simp [h]
  · simp [not_le.mpr h, Int.ceil_intCast]

lemma lookupCenter_selfMap {st : TrackState} (hst : SelfMap st)
    {k v : ℤ × ℤ} (h : lookupCenter st k = some v) : v = k := by
  induction st with
  | nil => simp [lookupCenter] at h
  | cons kv rest ih =>
    obtain ⟨k1, v1⟩ := kv
    rw [lookupCenter] at h
    by_cases hk : k1 = k
    · have hv : v1 = v := by simpa [hk] using h
      have hk1 : v1 = k1 := hst (k1, v1) (List.mem_cons_self _ _)
      exact (hv.symm.trans hk1).trans hk
    · rw [if_neg hk] at h
      exact ih (fun kv hkv => hst kv (List.mem_cons_of_mem _ hkv)) h

lemma speedSqOf_self (c : ℤ × ℤ) : speedSqOf c c = 0 := by
  simp [speedSqOf]

lemma blobSpeedDir_selfMap (sq : ℤ → ℚ) (hsq : sq 0 = 0) {st : TrackState}
    (hst : SelfMap st) (ctr : ℤ × ℤ) :
    blobSpeedDir sq st ctr =
      (0, if (lookupCenter st ctr).isSome then "Up" else "N/A") := by
  rw [blobSpeedDir]
  cases h : lookupCenter st ctr with
  | none => simp
  | some p =>
    have hp : p = ctr := lookupCenter_selfMap hst h
    subst hp
    simp [speedSqOf_self, hsq, directionOf]

lemma pass2_records (sq : ℤ → ℚ) (st : TrackState) (color : BGR) (s : Settings)
    (ms : ℚ) (cs : List Contour) :
    (pass2 sq st color s ms cs).records =
      (retainedList s.min_area cs).map (recordFor sq st) := by
  induction cs with
  | nil => simp [pass2, retainedList]
  | cons c rest ih =>
    by_cases h : s.min_area < c.area
    · simp [pass2, retainedList, List.filter_cons, h] at ih ⊢
      exact ih
    · simp [pass2, retainedList, List.filter_cons, h] at ih ⊢
      exact ih

lemma pass2_centers (sq : ℤ → ℚ) (st : TrackState) (color : BGR) (s : Settings)
    (ms : ℚ) (cs : List Contour) :
    (pass2 sq st color s ms cs).centers =
      (retainedList s.min_area cs).map (fun c => (centroid c, centroid c)) := by
  induction cs with
  | nil => simp [pass2, retainedList]
  | cons c rest ih =>
    by_cases h : s.min_area < c.area
    · simp [pass2, retainedList, List.filter_cons, h] at ih ⊢
      exact ih
    · simp [pass2, retainedList, List.filter_cons, h] at ih ⊢
      exact ih

lemma pass2_boxDraws (sq : ℤ → ℚ) (st : TrackState) (color : BGR) (s : Settings)
    (ms : ℚ) (cs : List Contour) :
    (pass2 sq st color s ms cs).boxDraws =
      (retainedList s.min_area cs).map (fun c =>
        { x := c.x, y := c.y, w := c.w, h := c.h,
          color := if s.heat_map then
              get_heat_color (blobSpeedDir sq st (centroid c)).1 ms
            else color : BoxDrawCall }) := by
  induction cs with
  | nil => simp [pass2, retainedList]
  | cons c rest ih =>
    by_cases h : s.min_area < c.area
    · simp [pass2, retainedList, List.filter_cons, h] at ih ⊢
      exact ih
    · simp [pass2, retainedList, List.filter_cons, h] at ih ⊢
      exact ih

/-- The list of speeds the first pass folds max over: one entry per retained
contour whose centroid occurs in prev_centers. -/
def matchedSpeeds (sq : ℤ → ℚ) (st : TrackState) (minArea : ℚ)
    (cs : List Contour) : List ℚ :=
  (retainedList minArea cs).filterMap (fun c =>
    (lookupCenter st (centroid c)).map (fun p => sq (speedSqOf (centroid c) p)))

lemma pass1_eq_foldl (sq : ℤ → ℚ) (st : TrackState) (minArea : ℚ) :
    ∀ (cs : List Contour) (m : ℚ),
      pass1 sq st minArea cs m = (matchedSpeeds sq st minArea cs).foldl max m := by
  intro cs
  induction cs with
  | nil => intro m; simp [pass1, matchedSpeeds, retainedList]
  | cons c rest ih =>
    intro m
    by_cases h : minArea < c.area
    · cases hl : lookupCenter st (centroid c) with
      | none =>
        simp [pass1, h, hl, matchedSpeeds, retainedList, List.filter_cons, ih]
      | some p =>
        simp [pass1, h, hl, matchedSpeeds, retainedList, List.filter_cons, ih]
    · simp [pass1, h, matchedSpeeds, retainedList, List.filter_cons, ih]

lemma foldl_max_const : ∀ (l : List ℚ) (acc : ℚ), (∀ x ∈ l, x ≤ acc) →
    l.foldl max acc = acc := by
  intro l
  induction l with
  | nil => intro acc _; rfl
  | cons x rest ih =>
    intro acc h
    have hx : x ≤ acc := h x (List.mem_cons_self _ _)
    simp only [List.foldl_cons, max_eq_left hx]
    exact ih acc (fun y hy => h y (List.mem_cons_of_mem _ hy))

lemma foldl_max_speeds (sq : ℤ → ℚ) (st : TrackState) :
    ∀ (l : List Contour) (acc : ℚ), 0 ≤ acc →
      (l.map (fun c => (blobSpeedDir sq st (centroid c)).1)).foldl max acc =
        (l.filterMap (fun c =>
          (lookupCenter st (centroid c)).map
            (fun p => sq (speedSqOf (centroid c) p)))).foldl max acc := by
  intro l
  induction l with
  | nil => intro acc _; rfl
  | cons c rest ih =>
    intro acc hacc
    cases hl : lookupCenter st (centroid c) with
    | none =>
      simp only [List.map_cons, List.foldl_cons, List.filterMap_cons, hl,
        Option.map_none', blobSpeedDir, max_eq_left hacc]
      exact ih acc hacc
    | some p =>
      simp only [List.map_cons, List.foldl_cons, List.filterMap_cons, hl,
        Option.map_some', blobSpeedDir]
      exact ih _ (le_trans hacc (le_max_left _ _))

/-! ### Claim theorems -/

/-- C10: when max_speed is 0 (the sentinel for no movement this frame),
get_heat_color returns pure blue (BGR (255,0,0)) for every speed value; in
particular at speed 0 and at any speed. -/
theorem heat_color_zero_max_blue (speed : ℚ) :
    get_heat_color speed 0 = (255, 0, 0) := by
  simp [get_heat_color]

/-- C3 (code evaluated at the failing inputs): with max_speed = 4, the
computed breakpoint colors are BGR (255,0,0) blue at ratio 0 and (0,0,255)
red at ratio 1 as claimed, but ratio 0.25 gives (255,255,0), cyan, not pure
green (0,255,0); ratio 0.5 gives (0,255,0), green, not pure yellow; and
ratio 0.75 gives (0,255,255), yellow, not a mid orange.  The code
contradicts its own comments (blue -> green -> yellow -> red). -/
theorem heat_color_breakpoints :
    get_heat_color 0 4 = (255, 0, 0) ∧
    get_heat_color 1 4 = (255, 255, 0) ∧
    get_heat_color 1 4 ≠ (0, 255, 0) ∧
    get_heat_color 1 2 = (0, 255, 0) ∧
    get_heat_color 3 4 = (0, 255, 255) ∧
    get_heat_color 2 2 = (0, 0, 255) := by
  refine ⟨?_, ?_, ?_, ?_, ?_, ?_⟩ <;> norm_num [get_heat_color, pyInt]

/-- C6: the direction classification agrees with the rule as the spec words
it, and takes the claimed value on each of the claimed displacement pairs,
ties with equal absolute displacements falling into the vertical branch. -/
theorem direction_rule :
    (∀ dx dy : ℤ, directionOf dx dy = directionSpec dx dy) ∧
    directionOf 5 2 = "Right" ∧
    directionOf (-5) 2 = "Left" ∧
    directionOf 2 5 = "Down" ∧
    directionOf 2 (-5) = "Up" ∧
    directionOf 3 3 = "Down" ∧
    directionOf 3 (-3) = "Up" ∧
    directionOf (-3) 3 = "Down" := by
  refine ⟨fun dx dy => rfl, ?_, ?_, ?_, ?_, ?_, ?_, ?_⟩ <;> decide

/-- C5 counterexample: for the in-frame box x=0, y=0, w=95, h=95 in a
100x100 frame with box_padding = 5, the padded-then-clamped box has
x + w = 100 = width, so the drawn right edge is NOT strictly less than the
frame width: the clamp only guarantees x + w <= width. -/
theorem clamped_box_edge_reaches_width :
    ((0:ℤ) ≤ 0 ∧ (0:ℤ) + 95 < 100 ∧ (0:ℤ) ≤ 5) ∧
    (draw_box_clamp 100 100 0 0 95 95 5).x +
      (draw_box_clamp 100 100 0 0 95 95 5).w = 100 ∧
    ¬ ((draw_box_clamp 100 100 0 0 95 95 5).x +
      (draw_box_clamp 100 100 0 0 95 95 5).w < 100) := by
  norm_num [draw_box_clamp]

/-- C5 amended: for every box and padding, the padded-then-clamped box of
draw_box satisfies x >= 0, y >= 0, x + w <= width and y + h <= height (the
closed bound; the right and bottom edges can land exactly on width and
height, so strict containment in the half-open frame fails). -/
theorem clamped_box_in_closed_frame (width height x y w h padding : ℤ) :
    0 ≤ (draw_box_clamp width height x y w h padding).x ∧
    0 ≤ (draw_box_clamp width height x y w h padding).y ∧
    (draw_box_clamp width height x y w h padding).x +
      (draw_box_clamp width height x y w h padding).w ≤ width ∧
    (draw_box_clamp width height x y w h padding).y +
      (draw_box_clamp width height x y w h padding).h ≤ height := by
  simp only [draw_box_clamp]
  omega

/-- C9: after process_frame, the stored tracker state is exactly the map
sending each retained centroid of the current frame to itself, independent
of the previous state (full replacement, not a merge); its key set is
exactly the current frame centroid set, so previous centroids that do not
recur are absent. -/
theorem tracker_state_full_replacement (sq : ℤ → ℚ) (st : TrackState)
    (color : BGR) (s : Settings) (cs : List Contour) :
    (process_frame sq st color s cs).newState =
      (retainedList s.min_area cs).map (fun c => (centroid c, centroid c)) ∧
    ∀ p : ℤ × ℤ,
      (∃ v, (p, v) ∈ (process_frame sq st color s cs).newState) ↔
        p ∈ (retainedList s.min_area cs).map centroid := by
  have hc : (process_frame sq st color s cs).newState =
      (retainedList s.min_area cs).map (fun c => (centroid c, centroid c)) :=
    pass2_centers sq st color s _ cs
  refine ⟨hc, fun p => ?_⟩
  rw [hc]
  constructor
  · rintro ⟨v, hv⟩
    simp only [List.mem_map] at hv ⊢
    obtain ⟨c, hcmem, hceq⟩ := hv
    exact ⟨c, hcmem, (Prod.mk.injEq _ _ _ _ ▸ hceq).1⟩
  · intro hp
    simp only [List.mem_map] at hp ⊢
    obtain ⟨c, hcmem, hceq⟩ := hp
    exact ⟨p, c, hcmem, by rw [hceq]⟩

/-- C1 (code evaluated against the claim): process_frame issues one
draw_box call per retained contour whatever the settings are; the show_box
setting is never consulted, so with show_box = false and a retained contour
of area 800 (min_area 500) the bounding box is still drawn. -/
theorem box_drawn_ignores_show_box :
    (∀ (sq : ℤ → ℚ) (st : TrackState) (color : BGR) (s : Settings)
        (cs : List Contour),
      (process_frame sq st color s cs).boxDraws.length =
        (retainedList s.min_area cs).length) ∧
    (process_frame npSqrt [] (0, 0, 0)
        { defaultSettings with show_box := false }
        [{ area := 800, x := 10, y := 10, w := 20, h := 20 }]).boxDraws.length = 1 := by
  constructor
  · intro sq st color s cs
    have h := pass2_boxDraws sq st color s (pass1 sq st s.min_area cs 0) cs
    simp only [process_frame]
    rw [h, List.length_map]
  · have h := pass2_boxDraws npSqrt [] (0, 0, 0)
      ({ defaultSettings with show_box := false })
      (pass1 npSqrt [] ({ defaultSettings with show_box := false } : Settings).min_area
        [{ area := 800, x := 10, y := 10, w := 20, h := 20 }] 0)
      [{ area := 800, x := 10, y := 10, w := 20, h := 20 }]
    simp only [process_frame]
    rw [h, List.length_map]
    norm_num [retainedList, List.filter, defaultSettings]

/-- C8: a contour is retained exactly when its area is strictly greater
than min_area; the DetectionRecord list is exactly one record per retained
contour; and in the 800/200 scenario with min_area 500 only the 800-area
contour produces a record. -/
theorem area_filter_exact :
    (∀ (minArea : ℚ) (c : Contour) (cs : List Contour),
      c ∈ retainedList minArea cs ↔ (c ∈ cs ∧ minArea < c.area)) ∧
    (∀ (sq : ℤ → ℚ) (st : TrackState) (color : BGR) (s : Settings)
        (cs : List Contour),
      (process_frame sq st color s cs).records =
        (retainedList s.min_area cs).map (recordFor sq st)) ∧
    (process_frame npSqrt [] (0, 0, 0) defaultSettings
        [{ area := 800, x := 0, y := 0, w := 40, h := 20 },
         { area := 200, x := 50, y := 50, w := 10, h := 20 }]).records =
      [{ area := 800, x := 0, y := 0, w := 40, h := 20, speed := 0,
         direction := "N/A" }] := by
  refine ⟨?_, ?_, ?_⟩
  · intro minArea c cs
    simp [retainedList, List.mem_filter]
  · intro sq st color s cs
    simp only [process_frame]
    exact pass2_records sq st color s _ cs
  · simp only [process_frame]
    rw [pass2_records]
    norm_num [retainedList, List.filter, defaultSettings, recordFor, blobSpeedDir,
      lookupCenter, pyInt]

/-- C4: for every frame, the max_speed derived by the first pass equals the
maximum (fold of max from 0) of the per-blob speeds that the second pass
recomputes into the DetectionRecord list; both passes read the same
prev_centers state, which process_frame replaces only after both passes. -/
theorem max_speed_two_pass (sq : ℤ → ℚ) (st : TrackState) (color : BGR)
    (s : Settings) (cs : List Contour) :
    (process_frame sq st color s cs).maxSpeed =
      ((process_frame sq st color s cs).records.map
        (fun r => r.speed)).foldl max 0 := by
  simp only [process_frame]
  rw [pass2_records, pass1_eq_foldl, List.map_map]
  have : (retainedList s.min_area cs).map
        ((fun r : DetectionRecord => r.speed) ∘ recordFor sq st) =
      (retainedList s.min_area cs).map
        (fun c => (blobSpeedDir sq st (centroid c)).1) := by
    apply List.map_congr_left
    intro c _
    simp [recordFor]
  rw [this, foldl_max_speeds sq st _ 0 le_rfl]
  rfl

/-- C2: if every stored value of prev_centers equals its own key (true of
the empty initial state and, as shown, of every state process_frame
produces), then process_frame preserves that invariant; every exact match
has dx = dy = 0 so every speed is 0 (np.sqrt(0) = 0), the frame max_speed
is 0, every matched blob gets direction Up, every unmatched blob direction
N/A, and every DetectionRecord carries speed 0. -/
theorem prev_centers_identity_invariant (sq : ℤ → ℚ) (st : TrackState)
    (color : BGR) (s : Settings) (cs : List Contour)
    (hsq : sq 0 = 0) (hst : SelfMap st) :
    SelfMap (process_frame sq st color s cs).newState ∧
    (process_frame sq st color s cs).maxSpeed = 0 ∧
    (process_frame sq st color s cs).records =
      (retainedList s.min_area cs).map (fun c =>
        { area := pyInt c.area, x := c.x, y := c.y, w := c.w, h := c.h,
          speed := 0,
          direction :=
            if (lookupCenter st (centroid c)).isSome then "Up"
            else "N/A" }) := by
  refine ⟨?_, ?_, ?_⟩
  · intro kv hkv
    rw [(tracker_state_full_replacement sq st color s cs).1] at hkv
    simp only [List.mem_map] at hkv
    obtain ⟨c, _, hceq⟩ := hkv
    rw [← hceq]
  · simp only [process_frame]
    rw [pass1_eq_foldl]
    apply foldl_max_const
    intro x hx
    simp only [matchedSpeeds, List.mem_filterMap, Option.map_eq_some'] at hx
    obtain ⟨c, _, p, hp, hxeq⟩ := hx
    have : p = centroid c := lookupCenter_selfMap hst hp
    rw [← hxeq, this, speedSqOf_self, hsq]
  · simp only [process_frame]
    rw [pass2_records]
    apply List.map_congr_left
    intro c _
    rw [recordFor, blobSpeedDir_selfMap sq hsq hst]

/-- Witness for the C2 theorem at a concrete input: np.sqrt of 0 is 0, the
concrete one-entry previous state maps its key to itself, and the
conclusion holds for one retained contour whose centroid is new. -/
theorem prev_centers_identity_invariant_witness :
    npSqrt 0 = 0 ∧
    SelfMap [((7, 7), (7, 7))] ∧
    (SelfMap (process_frame npSqrt [((7, 7), (7, 7))] (0, 0, 0)
        defaultSettings [{ area := 800, x := 10, y := 10, w := 20, h := 20 }]).newState ∧
    (process_frame npSqrt [((7, 7), (7, 7))] (0, 0, 0) defaultSettings
        [{ area := 800, x := 10, y := 10, w := 20, h := 20 }]).maxSpeed = 0 ∧
    (process_frame npSqrt [((7, 7), (7, 7))] (0, 0, 0) defaultSettings
        [{ area := 800, x := 10, y := 10, w := 20, h := 20 }]).records =
      (retainedList defaultSettings.min_area
          [{ area := 800, x := 10, y := 10, w := 20, h := 20 }]).map (fun c =>
        { area := pyInt c.area, x := c.x, y := c.y, w := c.w, h := c.h,
          speed := 0,
          direction :=
            if (lookupCenter [((7, 7), (7, 7))] (centroid c)).isSome then "Up"
            else "N/A" })) :=
  ⟨by simp [npSqrt],
   by simp [SelfMap],
   prev_centers_identity_invariant npSqrt [((7, 7), (7, 7))] (0, 0, 0)
     defaultSettings [{ area := 800, x := 10, y := 10, w := 20, h := 20 }]
     (by simp [npSqrt]) (by simp [SelfMap])⟩

/-- C7 amended: for a pair of connection points whose exact distance is the
integer k (perfect-square case, which np.sqrt computes exactly), a line is
issued iff k < line_distance; the issued color is the configured color with
each channel c replaced by int(c * intensity/255) for the truncated
intensity int(255 * (1 - distance/line_distance)); distance 0 gives
intensity 255, hence exactly the configured color (factor 1.0); and
distance = line_distance/2 gives intensity 127, a factor of 127/255, not
exactly 0.5. -/
theorem proximity_line_rule (sq : ℤ → ℚ) (s : Settings) (p q : ℤ × ℤ) (k : ℕ)
    (hk : sq (distSq p q) = (k : ℚ)) (ht : 0 < s.line_distance) :
    ((pairLine sq s p q).isSome ↔ (k : ℤ) < s.line_distance) ∧
    (pairLine sq s p q =
      if (k : ℤ) < s.line_distance then
        some (p, q, lineColorFor s.line_color s.line_distance (k : ℚ))
      else none) ∧
    lineIntensity s.line_distance 0 = 255 ∧
    (∀ c : BGR, lineColorFor c s.line_distance 0 = c) ∧
    ((k : ℤ) * 2 = s.line_distance → lineIntensity s.line_distance (k : ℚ) = 127) := by
  have hcast : ((k : ℚ) < (s.line_distance : ℚ)) ↔ ((k : ℤ) < s.line_distance) := by
    constructor
    · intro h; exact_mod_cast h
    · intro h; exact_mod_cast h
  have hfac : ∀ c : BGR, lineColorFor c s.line_distance 0 = c := by
    intro c
    obtain ⟨b, g, r⟩ := c
    have hi : lineIntensity s.line_distance 0 = 255 := by
      rw [lineIntensity]
      norm_num [pyInt]
    rw [lineColorFor, hi]
    have hch : ∀ z : ℤ, pyInt (((z * 255 : ℤ) : ℚ) / (255 : ℚ)) = z := by
      intro z
      have : ((z * 255 : ℤ) : ℚ) / (255 : ℚ) = (z : ℚ) := by
        push_cast
        field_simp
      rw [this, pyInt_intCast]
    simp only [hch]
  refine ⟨?_, ?_, ?_, hfac, ?_⟩
  · rw [pairLine]
    by_cases h : (k : ℤ) < s.line_distance
    · simp [hk, hcast.mpr h, h]
    · simp [hk, h]
      exact_mod_cast not_lt.mp h
  · rw [pairLine]
    by_cases h : (k : ℤ) < s.line_distance
    · simp [hk, hcast.mpr h, h]
    · simp [hk, h]
      exact_mod_cast not_lt.mp h
  · rw [lineIntensity]
    norm_num [pyInt]
  · intro hk2
    have hkpos : 0 < (k : ℤ) := by omega
    have htq : ((s.line_distance : ℤ) : ℚ) = 2 * (k : ℚ) := by
      rw [← hk2]
      push_cast
      ring
    have hknz : (k : ℚ) ≠ 0 := by
      have : (0 : ℤ) < (k : ℤ) := hkpos
      intro h0
      rw [show ((k : ℚ) = ((k : ℤ) : ℚ)) by push_cast; ring] at h0
      exact absurd (by exact_mod_cast h0 : (k : ℤ) = 0) (by omega)
    rw [lineIntensity, htq]
    have : (k : ℚ) / (2 * (k : ℚ)) = 1 / 2 := by
      field_simp
      ring
    rw [this]
    rw [pyInt]
    norm_num [Int.floor_eq_iff]

/-- Witness for the C7 theorem: points (0,0) and (100,0) at exact distance
100 (np.sqrt(10000) = 100) against the default settings (line_distance 200),
with every hypothesis discharged concretely. -/
theorem proximity_line_rule_witness :
    npSqrt (distSq (0, 0) (100, 0)) = ((100 : ℕ) : ℚ) ∧
    0 < defaultSettings.line_distance ∧
    (((pairLine npSqrt defaultSettings (0, 0) (100, 0)).isSome ↔
        ((100 : ℕ) : ℤ) < defaultSettings.line_distance) ∧
     (pairLine npSqrt defaultSettings (0, 0) (100, 0) =
       if ((100 : ℕ) : ℤ) < defaultSettings.line_distance then
         some ((0, 0), (100, 0),
           lineColorFor defaultSettings.line_color defaultSettings.line_distance
             ((100 : ℕ) : ℚ))
       else none) ∧
     lineIntensity defaultSettings.line_distance 0 = 255 ∧
     (∀ c : BGR, lineColorFor c defaultSettings.line_distance 0 = c) ∧
     (((100 : ℕ) : ℤ) * 2 = defaultSettings.line_distance →
       lineIntensity defaultSettings.line_distance ((100 : ℕ) : ℚ) = 127)) := by
  have hk : npSqrt (distSq (0, 0) (100, 0)) = ((100 : ℕ) : ℚ) := by
    have h1 : Int.toNat (distSq (0, 0) (100, 0)) = 10000 := by simp [distSq]
    rw [npSqrt, h1]
    norm_num
  have ht : 0 < defaultSettings.line_distance := by norm_num [defaultSettings]
  exact ⟨hk, ht, proximity_line_rule npSqrt defaultSettings (0, 0) (100, 0) 100 hk ht⟩

/-- C7 counterexample to the claim as stated: connection points at exact
distance 100 with line_distance 200 (half the threshold) and configured
line color (255,255,255).  The code issues the line with every channel
127, a scale factor of 127/255, whereas the claimed per-channel value
channel * intensity/255 with intensity = 255 * (1 - distance/threshold)
is 127.5 per channel (a factor of exactly 0.5); the code truncates the
intensity to an integer before scaling, so the claimed factor 0.5 is not
attained. -/
theorem half_distance_factor_not_half :
    pairLine npSqrt
        { defaultSettings with line_color := (255, 255, 255) } (0, 0) (100, 0) =
      some ((0, 0), (100, 0), (127, 127, 127)) ∧
    (255 : ℚ) * ((255 : ℚ) * (1 - 100 / 200)) / 255 ≠ ((127 : ℤ) : ℚ) := by
  have hk : npSqrt (distSq (0, 0) (100, 0)) = (100 : ℚ) := by
    have h1 : Int.toNat (distSq (0, 0) (100, 0)) = 10000 := by simp [distSq]
    rw [npSqrt, h1]
    norm_num
  have hi : lineIntensity 200 (100 : ℚ) = 127 := by
    rw [lineIntensity]
    norm_num [pyInt, Int.floor_eq_iff]
  have hcol : lineColorFor (255, 255, 255) 200 (100 : ℚ) = (127, 127, 127) := by
    simp only [lineColorFor, hi]
    norm_num [pyInt]
  constructor
  · rw [pairLine]
    simp only [hk]
    norm_num [defaultSettings]
    exact hcol
  · norm_num
